import Mathlib

/-!
Verification of the `update-dnsimple-dns.py` reconciliation script.

Python strings are sequences of Unicode code points, so they are embedded
as `List Char` (named `PyStr`).  Python helpers such as `str.split`,
`str.strip`, `str.startswith` and truthiness are given explicit models
below.  The DNSimple HTTP API (the "ZoneRecordStore" of the design
document), the operating-system network state read through subprocesses,
and the Python standard library (`str.isalnum`, `ipaddress.ip_address`)
are external collaborators and are modelled from the specification where
marked.
-/

namespace DnsUpdate

/-- A Python string: its sequence of Unicode code points. -/
abbrev PyStr := List Char

/-- Modelled from the spec: Python's Unicode-aware `str.isalnum`
(standard library, not part of the repository).  The model is faithful on
the Basic Latin and Latin-1 Supplement blocks (U+0000..U+00FF): ASCII
digits and letters, the Latin-1 letters U+00AA, U+00B5, U+00BA and
U+00C0..U+00FF minus the two signs U+00D7 and U+00F7, and the Latin-1
numeric characters U+00B2, U+00B3, U+00B9 and U+00BC..U+00BE.  Code
points above U+00FF are conservatively classified as non-alphanumeric. -/
def pyIsAlnum (c : Char) : Bool :=
  (('0' ≤ c && c ≤ '9') || ('a' ≤ c && c ≤ 'z') || ('A' ≤ c && c ≤ 'Z')) ||
  (c.toNat == 0xAA || c.toNat == 0xB5 || c.toNat == 0xBA ||
   c.toNat == 0xB2 || c.toNat == 0xB3 || c.toNat == 0xB9 ||
   (0xBC ≤ c.toNat && c.toNat ≤ 0xBE) ||
   (0xC0 ≤ c.toNat && c.toNat ≤ 0xFF && c.toNat ≠ 0xD7 && c.toNat ≠ 0xF7))

/-- Python `s.split(sep)` for a one-character separator: keeps empty
pieces, never returns an empty list. -/
def pySplit (sep : Char) : PyStr → List PyStr
  | [] => [[]]
  | c :: rest =>
    match pySplit sep rest with
    | [] => [[]]
    | piece :: pieces =>
      if c = sep then [] :: piece :: pieces else (c :: piece) :: pieces

/-- The whitespace characters recognised by Python `str.split()` and
`str.strip()` (ASCII fragment). -/
def isPySpace (c : Char) : Bool :=
  c = ' ' || c = '\t' || c = '\n' || c = '\r' || c = '\x0b' || c = '\x0c'

/-- Python `s.split()` (no separator): split on whitespace runs,
dropping empty pieces. -/
def pySplitWs (s : PyStr) : List PyStr :=
  (s.splitOnP isPySpace).filter (fun p => p ≠ [])

/-- Python `s.strip()`: remove leading and trailing whitespace. -/
def pyStrip (s : PyStr) : PyStr :=
  ((s.dropWhile isPySpace).reverse.dropWhile isPySpace).reverse

/-- Python `s.startswith(pre)`. -/
def pyStartsWith (pre s : PyStr) : Bool := pre.isPrefixOf s

/-- Python `s.endswith(suf)`. -/
def pyEndsWith (suf s : PyStr) : Bool := suf.isSuffixOf s

/-- Python `sub in s` (substring containment). -/
def pyContains (sub s : PyStr) : Bool := decide (List.IsInfix sub s)

/-- Source, `validate_hostname` lines 56-73: the per-label loop.  `i` is
the index carried by `enumerate`; each branch mirrors one early
`return False` of the Python loop. -/
def checkParts (i : Nat) : List PyStr → Bool
  | [] => true
  | part :: rest =>
    if part = [] || part.length > 63 then false
    else if part = ['*'] then
      if i ≠ 0 then false else checkParts (i + 1) rest
    else if !(pyIsAlnum (part.headD ' ')) || !(pyIsAlnum (part.getLastD ' ')) then
      false
    else if !(part.all fun c => pyIsAlnum c || c = '-') then false
    else checkParts (i + 1) rest

/-- Source, `validate_hostname` lines 41-74: length bound, dot-pattern
rejection, split on `.`, at-least-two-labels check, then the per-label
loop. -/
def validate_hostname (hostname : PyStr) : Bool :=
  if hostname = [] || hostname.length > 253 then false
  else if pyStartsWith ['.'] hostname || pyEndsWith ['.'] hostname ||
          pyContains ['.', '.'] hostname then false
  else
    let parts := pySplit '.' hostname
    if parts.length < 2 then false
    else checkParts 0 parts

/-- Spec §4.1, per-label rule, stated from the specification's words:
the label is non-empty with length at most 63; a label equal to `*` is
allowed only at index 0; any other label starts and ends with an
alphanumeric character and contains only alphanumeric characters or
hyphens. -/
def specLabelOk (i : Nat) (label : PyStr) : Bool :=
  decide (label ≠ []) && decide (label.length ≤ 63) &&
  (if label = ['*'] then decide (i = 0)
   else pyIsAlnum (label.headD ' ') && pyIsAlnum (label.getLastD ' ') &&
        label.all (fun c => pyIsAlnum c || c = '-'))

/-- Indexed `List.all`, used to state the specification's "for each
label at index i" clause. -/
def allWithIndex (f : Nat → PyStr → Bool) : Nat → List PyStr → Bool
  | _, [] => true
  | i, p :: ps => f i p && allWithIndex f (i + 1) ps

/-- Spec §4.1, stated from the specification's words: non-empty, length
at most 253, no leading or trailing dot, no double dot, at least two
labels after splitting on `.`, and every label satisfies the per-label
rule at its index. -/
def specValidHostname (h : PyStr) : Bool :=
  decide (h ≠ []) && decide (h.length ≤ 253) &&
  !(pyStartsWith ['.'] h) && !(pyEndsWith ['.'] h) &&
  !(pyContains ['.', '.'] h) &&
  decide (2 ≤ (pySplit '.' h).length) &&
  allWithIndex specLabelOk 0 (pySplit '.' h)

/-- A 63-character label of `a`s. -/
def label63 : PyStr := List.replicate 63 'a'

/-- A 253-character hostname: three 63-character labels and one
61-character label. -/
def host253 : PyStr :=
  label63 ++ '.' :: label63 ++ '.' :: label63 ++ '.' :: List.replicate 61 'a'

/-- A 254-character hostname: three 63-character labels and one
62-character label. -/
def host254 : PyStr :=
  label63 ++ '.' :: label63 ++ '.' :: label63 ++ '.' :: List.replicate 62 'a'

/-- A hostname whose first label has exactly 63 characters. -/
def hostLabel63 : PyStr := label63 ++ '.' :: "example.com".toList

/-- A hostname whose first label has 64 characters. -/
def hostLabel64 : PyStr := List.replicate 64 'a' ++ '.' :: "example.com".toList

/-- Source, `process_hostname` line 303: the zone name is the last two
dot-separated parts of the hostname, joined by `.`
(`'.'.join(parts[-2:])`). -/
def zoneOf (hostname : PyStr) : PyStr :=
  let parts := pySplit '.' hostname
  List.intercalate ['.'] (parts.drop (parts.length - 2))

/-- Source, `process_hostname` lines 306-309: the record name is the
leading parts joined by `.` when there are more than two parts, and the
empty string otherwise. -/
def recordNameOf (hostname : PyStr) : PyStr :=
  let parts := pySplit '.' hostname
  if parts.length > 2 then List.intercalate ['.'] (parts.take (parts.length - 2))
  else []

/-- Spec §4.3, stated from the specification's words: `zoneName` is the
last two labels joined by `.`, and `recordName` is the remaining leading
labels joined by `.` (the join of no labels being the empty string). -/
def spec_split (hostname : PyStr) : PyStr × PyStr :=
  let labels := pySplit '.' hostname
  (List.intercalate ['.'] (labels.drop (labels.length - 2)),
   List.intercalate ['.'] (labels.take (labels.length - 2)))

/-- ASCII decimal digit. -/
def isDigitC (c : Char) : Bool := '0' ≤ c && c ≤ '9'

/-- ASCII hexadecimal digit. -/
def isHexDigitC (c : Char) : Bool :=
  isDigitC c || ('a' ≤ c && c ≤ 'f') || ('A' ≤ c && c ≤ 'F')

/-- Decimal value of a digit string. -/
def natOfDigits (s : PyStr) : Nat :=
  s.foldl (fun n c => 10 * n + (c.toNat - '0'.toNat)) 0

/-- Modelled from the spec: one octet of an IPv4 dotted-quad as accepted
by the standard library parser — decimal digits only, at most three of
them, no leading zero, value at most 255. -/
def isIPv4Octet (p : PyStr) : Bool :=
  decide (p ≠ []) && decide (p.length ≤ 3) && p.all isDigitC &&
  (decide (p.length = 1) || decide (p.headD '0' ≠ '0')) &&
  decide (natOfDigits p ≤ 255)

/-- Modelled from the spec: an IPv4 dotted-quad literal — exactly four
octets separated by dots. -/
def isIPv4 (s : PyStr) : Bool :=
  let parts := pySplit '.' s
  decide (parts.length = 4) && parts.all isIPv4Octet

/-- Modelled from the spec: one colon-hex group — one to four
hexadecimal digits. -/
def isHextet (g : PyStr) : Bool :=
  decide (g ≠ []) && decide (g.length ≤ 4) && g.all isHexDigitC

/-- Modelled from the spec: an IPv6 colon-hex literal, mirroring the
standard library parser — at least three colon-separated parts, an
optional embedded IPv4 tail (counting as two groups), at most nine
parts, at most one `::` compression (required to supply at least one
zero group), leading or trailing empty parts only as part of a leading
or trailing `::`, and eight groups in total when there is no
compression. -/
def isIPv6 (s : PyStr) : Bool :=
  let parts0 := pySplit ':' s
  if parts0.length < 3 then false
  else
    let lastP := parts0.getLastD []
    if lastP.contains '.' && !(isIPv4 lastP) then false
    else
      let parts := if lastP.contains '.' then parts0.dropLast ++ [['0'], ['0']]
                   else parts0
      if parts.length > 9 then false
      else
        let inner := (parts.drop 1).dropLast
        let empties := (inner.filter (fun p => p = [])).length
        if empties > 1 then false
        else if empties = 1 then
          let skip := 1 + inner.findIdx (fun p => p = [])
          let hi0 := skip
          let lo0 := parts.length - skip - 1
          let headEmpty := parts.headD ['x'] = []
          let lastEmpty := parts.getLastD ['x'] = []
          if headEmpty && decide (hi0 - 1 ≠ 0) then false
          else if lastEmpty && decide (lo0 - 1 ≠ 0) then false
          else
            let hi := if headEmpty then hi0 - 1 else hi0
            let lo := if lastEmpty then lo0 - 1 else lo0
            if hi + lo > 7 then false
            else parts.all (fun p => p = [] || isHextet p)
        else
          decide (parts.length = 8) && decide (parts.headD [] ≠ []) &&
          decide (parts.getLastD [] ≠ []) && parts.all isHextet

/-- Source, `validate_ip_address` lines 222-229.  The call
`ipaddress.ip_address(ip)` is a standard-library parser (not part of the
repository); per spec §6 the accepted grammar is "IPv4 dotted-quad or
IPv6 colon-hex, validated by standard address-parsing rules", modelled
by `isIPv4` and `isIPv6`. -/
def validate_ip_address (ip : PyStr) : Bool := isIPv4 ip || isIPv6 ip

/-- The three address-discovery strategies the source can attempt: the
route query (`ip route get 8.8.8.8`, lines 90-101), the interface dump
(`ip addr show`, lines 104-115), and the named-interface scan
(`ifconfig`, lines 126-161). -/
inductive Strategy where
  | routeGet
  | addrShow
  | ifconfig
deriving DecidableEq

/-- Modelled from the spec: the operating-system network state as seen
through the three subprocess invocations (external collaborators, spec
§4.2).  Each field is the standard output of one command, or `none` when
the command raises (`CalledProcessError` / `FileNotFoundError`). -/
structure NetEnv where
  routeOut : Option PyStr
  addrOut : Option PyStr
  ifconfigOut : Option PyStr

/-- Source, lines 99, 113, 150: an address is skipped when it is
loopback (`127.`) or link-local (`169.254.`). -/
def excludedIp (ip : PyStr) : Bool :=
  pyStartsWith ("127.".toList) ip || pyStartsWith ("169.254.".toList) ip

/-- Source, `get_ip_linux` lines 93-101: scan the route-query output for
the token following `src`.  A line containing the substring `src` whose
whitespace-split tokens do not contain `src` exactly makes
`parts.index('src')` raise `ValueError`, modelled as `Except.error`;
that exception aborts the whole function (it is caught only at line
119). -/
def scanRouteLines : List PyStr → Except Unit (Option PyStr)
  | [] => .ok none
  | line :: rest =>
    if pyContains ("src".toList) line then
      match (pySplitWs line).findIdx? (fun p => p = "src".toList) with
      | none => .error ()
      | some si =>
        if si + 1 < (pySplitWs line).length then
          let ip := (pySplitWs line).getD (si + 1) []
          if !(excludedIp ip) then .ok (some ip) else scanRouteLines rest
        else scanRouteLines rest
    else scanRouteLines rest

/-- Source, `get_ip_linux` lines 104-115: scan the `ip addr show` output
for a stripped line starting with `inet ` and containing
`scope global`, taking the token before the CIDR slash. -/
def scanAddrLines : List PyStr → Option PyStr
  | [] => none
  | line0 :: rest =>
    let line := pyStrip line0
    if pyStartsWith ("inet ".toList) line &&
       pyContains ("scope global".toList) line then
      if 2 ≤ (pySplitWs line).length then
        let ip := (pySplit '/' ((pySplitWs line).getD 1 [])).headD []
        if !(excludedIp ip) then some ip else scanAddrLines rest
      else scanAddrLines rest
    else scanAddrLines rest

/-- Python truthiness of `current_interface and
current_interface.startswith('en')` (line 144). -/
def curIsEn : Option PyStr → Bool
  | none => false
  | some c => decide (c ≠ []) && pyStartsWith ("en".toList) c

/-- Source, `get_ip_macos` lines 134-152: track the current `en*`
interface block and return the first non-excluded `inet` address inside
one. -/
def scanIfconfigLines : List PyStr → Option PyStr → Option PyStr
  | [], _ => none
  | line0 :: rest, cur =>
    let line := pyStrip line0
    if pyStartsWith ("en".toList) line then
      scanIfconfigLines rest (some ((pySplit ':' line).headD []))
    else if pyStartsWith ("inet ".toList) line && curIsEn cur then
      if 2 ≤ (pySplitWs line).length then
        let ip := (pySplitWs line).getD 1 []
        if !(excludedIp ip) then some ip else scanIfconfigLines rest cur
      else scanIfconfigLines rest cur
    else scanIfconfigLines rest cur

/-- Source, `get_ip_linux` lines 86-124.  Both subprocess calls and all
parsing share a single `try` block, so a raising route query (or a
`ValueError` while parsing its output) returns `None` for the whole
function without running `ip addr show`.  The returned list records
which strategies were actually attempted (which subprocesses were
invoked). -/
def get_ip_linux (env : NetEnv) : Option PyStr × List Strategy :=
  match env.routeOut with
  | none => (none, [.routeGet])
  | some out =>
    match scanRouteLines (pySplit '\n' out) with
    | .error () => (none, [.routeGet])
    | .ok (some ip) => (some ip, [.routeGet])
    | .ok none =>
      match env.addrOut with
      | none => (none, [.routeGet, .addrShow])
      | some aout => (scanAddrLines (pySplit '\n' aout), [.routeGet, .addrShow])

/-- Source, `get_ip_macos` lines 126-161, with the attempted-strategy
trace. -/
def get_ip_macos (env : NetEnv) : Option PyStr × List Strategy :=
  match env.ifconfigOut with
  | none => (none, [.ifconfig])
  | some out => (scanIfconfigLines (pySplit '\n' out) none, [.ifconfig])

/-- Python truthiness of an optional string: `None` and the empty string
are falsy. -/
def pyTruthy : Option PyStr → Bool
  | none => false
  | some s => decide (s ≠ [])

/-- Source, `get_ethernet_ip` lines 76-84:
`ip = get_ip_linux() or get_ip_macos(); return ip if ip else None`,
with the concatenated attempted-strategy trace. -/
def get_ethernet_ip (env : NetEnv) : Option PyStr × List Strategy :=
  let lin := get_ip_linux env
  if pyTruthy lin.1 then (lin.1, lin.2)
  else
    let mac := get_ip_macos env
    ((if pyTruthy mac.1 then mac.1 else none), lin.2 ++ mac.2)

/-- A zone record as stored by the provider: the fields of spec §3
`AddressRecord` that the source reads (`record.id`, `record.type`,
`record.name`, `record.content`) plus the TTL it writes. -/
structure DNSRecord where
  id : Nat
  type : PyStr
  name : PyStr
  content : PyStr
  ttl : Nat
deriving DecidableEq

/-- Modelled from the spec: the state of the external `ZoneRecordStore`
collaborator (spec §4.4; the real binding is the DNSimple HTTP API,
which is not part of the repository).  `zones` maps a zone name to its
record sequence; the `..Fails` oracles say which calls the provider
rejects, so that every pattern of `ProviderError`s is covered; `nextId`
supplies fresh provider-assigned record ids. -/
structure Store where
  zones : PyStr → List DNSRecord
  listFails : PyStr → Bool
  createFails : PyStr → PyStr → Bool
  updateFails : PyStr → Nat → Bool
  nextId : Nat

/-- Modelled from the spec: `list(zone)` (spec §4.4) — the zone's record
sequence, or failure. -/
def Store.listRecords (s : Store) (zone : PyStr) : Option (List DNSRecord) :=
  if s.listFails zone then none else some (s.zones zone)

/-- Modelled from the spec: `create(zone, name, content, ttl)` (spec
§4.4) — appends a fresh record built from the request payload to the
zone, or fails. -/
def Store.createRecord (s : Store) (zone name rtype content : PyStr) (ttl : Nat) :
    Option (DNSRecord × Store) :=
  if s.createFails zone name then none
  else
    let r : DNSRecord := ⟨s.nextId, rtype, name, content, ttl⟩
    some (r,
      { s with
        zones := fun z => if z = zone then s.zones zone ++ [r] else s.zones z,
        nextId := s.nextId + 1 })

/-- The per-record effect of a store update: overwrite content and ttl
of the record carrying the requested id, leave every other record and
every other field alone. -/
def updFn (recordId : Nat) (content : PyStr) (ttl : Nat) (r : DNSRecord) :
    DNSRecord :=
  if r.id = recordId then { r with content := content, ttl := ttl } else r

/-- Modelled from the spec: `update(zone, recordId, content, ttl)` (spec
§4.4) — overwrites the content and ttl of the identified record with the
request payload, or fails. -/
def Store.updateRecord (s : Store) (zone : PyStr) (recordId : Nat)
    (content : PyStr) (ttl : Nat) : Option Store :=
  if s.updateFails zone recordId then none
  else some
    { s with
      zones := fun z =>
        if z = zone then (s.zones zone).map (updFn recordId content ttl)
        else s.zones z }

/-- Modelled from the spec: `delete(zone, recordId)` (spec §4.4) —
removes the identified record. -/
def Store.deleteRecord (s : Store) (zone : PyStr) (recordId : Nat) : Store :=
  { s with
    zones := fun z =>
      if z = zone then (s.zones zone).filter (fun r => r.id ≠ recordId)
      else s.zones z }

/-- One call issued to the zone record store, for tracing which provider
operations a run performs. -/
inductive Call where
  | list (zone : PyStr)
  | create (zone name content : PyStr) (ttl : Nat)
  | update (zone : PyStr) (recordId : Nat) (content : PyStr) (ttl : Nat)
  | delete (zone : PyStr) (recordId : Nat)
deriving DecidableEq

/-- Whether a store call is a delete. -/
def Call.isDelete : Call → Bool
  | .delete _ _ => true
  | _ => false

/-- Source, `get_existing_dns_records` lines 190-206: list the zone's
records, returning `none` on provider failure.  The result is paired
with the issued store call. -/
def get_existing_dns_records (s : Store) (zone : PyStr) :
    Option (List DNSRecord) × List Call :=
  (s.listRecords zone, [Call.list zone])

/-- Source, `delete_dns_record` lines 208-220: exposed delete operation;
never invoked by the reconciliation loop. -/
def delete_dns_record (s : Store) (zone : PyStr) (recordId : Nat) :
    Bool × Store × List Call :=
  (true, s.deleteRecord zone recordId, [Call.delete zone recordId])

/-- Source, `create_dns_record` lines 231-259: validate the IP literal
first (returning failure with no store call when invalid), then issue
the create with payload `{name, type: "A", content: ip, ttl: 300}`. -/
def create_dns_record (s : Store) (zone name ip : PyStr) :
    Bool × Store × List Call :=
  if !(validate_ip_address ip) then (false, s, [])
  else
    match s.createRecord zone name ("A".toList) ip 300 with
    | none => (false, s, [Call.create zone name ip 300])
    | some (_, s') => (true, s', [Call.create zone name ip 300])

/-- Source, `update_dns_record` lines 261-285: validate the IP literal
first (returning failure with no store call when invalid), then issue
the update with payload `{content: ip, ttl: 300}`. -/
def update_dns_record (s : Store) (zone : PyStr) (recordId : Nat) (ip : PyStr) :
    Bool × Store × List Call :=
  if !(validate_ip_address ip) then (false, s, [])
  else
    match s.updateRecord zone recordId ip 300 with
    | none => (false, s, [Call.update zone recordId ip 300])
    | some s' => (true, s', [Call.update zone recordId ip 300])

/-- The per-hostname outcome (spec §3 `ReconciliationResult`).  Each
constructor corresponds to one return path of the source's
`process_hostname`; the source distinguishes them by its log messages
and collapses them to the boolean `Outcome.isSuccess`. -/
inductive Outcome where
  | invalidHostname
  | zoneReadFailed
  | unchanged
  | updated
  | updateFailed
  | created
  | createFailed
deriving DecidableEq

/-- The boolean actually returned by the source's `process_hostname`:
`True` exactly on the `unchanged`, `updated` and `created` paths. -/
def Outcome.isSuccess : Outcome → Bool
  | .unchanged => true
  | .updated => true
  | .created => true
  | _ => false

/-- Source, `process_hostname` lines 323-328: the first listed record
whose type is `A` and whose name equals the derived record name. -/
def findA (records : List DNSRecord) (name : PyStr) : Option DNSRecord :=
  records.find? (fun r => r.type = "A".toList && r.name = name)

/-- Source, `process_hostname` lines 287-350: validate the hostname,
derive zone and record name, list existing records, find the first `A`
record with the derived name, and decide no-op / update / create. -/
def process_hostname (s : Store) (hostname ip : PyStr) :
    Outcome × Store × List Call :=
  if !(validate_hostname hostname) then (.invalidHostname, s, [])
  else if (pySplit '.' hostname).length < 2 then (.invalidHostname, s, [])
  else
    let zone_name := zoneOf hostname
    let record_name := recordNameOf hostname
    match get_existing_dns_records s zone_name with
    | (none, calls) => (.zoneReadFailed, s, calls)
    | (some records, calls) =>
      match findA records record_name with
      | some existing =>
        if existing.content = ip then (.unchanged, s, calls)
        else
          let (ok, s', calls') := update_dns_record s zone_name existing.id ip
          if ok then (.updated, s', calls ++ calls')
          else (.updateFailed, s', calls ++ calls')
      | none =>
        let (ok, s', calls') := create_dns_record s zone_name record_name ip
        if ok then (.created, s', calls ++ calls')
        else (.createFailed, s', calls ++ calls')

/-- Source, `update_dns_records` loop lines 385-394: process each
hostname in order against the evolving store, collecting every
per-hostname outcome and every store call; a failed hostname never
stops the loop. -/
def runHostnames (s : Store) (hostnames : List PyStr) (ip : PyStr) :
    List Outcome × Store × List Call :=
  match hostnames with
  | [] => ([], s, [])
  | h :: rest =>
    let (o, s', calls) := process_hostname s h ip
    let (os, s'', calls') := runHostnames s' rest ip
    (o :: os, s'', calls ++ calls')

/-- Source, `update_dns_records` lines 385-404 (with client, account id,
hostname list and local IP already obtained: the configuration paths of
lines 352-382 are preconditions outside the reconciliation core): run
every hostname, then report success when all succeeded or when at least
one succeeded, failure otherwise. -/
def update_dns_records (s : Store) (hostnames : List PyStr) (ip : PyStr) :
    Bool × Store × List Call :=
  let (os, s', calls) := runHostnames s hostnames ip
  let success_count := (os.filter Outcome.isSuccess).length
  let total_count := hostnames.length
  (if success_count = total_count then true
   else if success_count > 0 then true
   else false, s', calls)

/-- Source, `main` lines 456-457: `sys.exit(0 if success else 1)`. -/
def mainExitCode (s : Store) (hostnames : List PyStr) (ip : PyStr) : Nat :=
  if (update_dns_records s hostnames ip).1 then 0 else 1

/-- The invariant behind idempotence: listing the zone succeeds and the
first `A` record with the given name already carries the target
address. -/
def good (s : Store) (z n ip : PyStr) : Prop :=
  s.listFails z = false ∧ ∃ r, findA (s.zones z) n = some r ∧ r.content = ip

/-- A store with no records and no provider failures. -/
def emptyStore : Store :=
  ⟨fun _ => [], fun _ => false, fun _ _ => false, fun _ _ => false, 1⟩

/-- The hostname used by concrete instantiations. -/
def hostApi : PyStr := "api.example.com".toList

/-- The target address used by concrete instantiations. -/
def ipTarget : PyStr := "10.0.0.5".toList

/-- An obviously malformed hostname. -/
def hostBad : PyStr := "..bad".toList

/-- A store holding a stale `api` record (old address, TTL 600) in zone
`example.com`, with no provider failures. -/
def staleStore : Store :=
  ⟨fun _ => [⟨7, "A".toList, "api".toList, "10.0.0.9".toList, 600⟩],
   fun _ => false, fun _ _ => false, fun _ _ => false, 8⟩

/-- A store holding a current `api` record (already the target address)
in zone `example.com`, with no provider failures. -/
def currentStore : Store :=
  ⟨fun _ => [⟨7, "A".toList, "api".toList, "10.0.0.5".toList, 300⟩],
   fun _ => false, fun _ _ => false, fun _ _ => false, 8⟩

/-- A network environment where the route query raises but the interface
dump would have produced a qualifying global address. -/
def envRouteRaises : NetEnv :=
  ⟨none, some ("inet 10.0.0.5/24 scope global eth0".toList), none⟩

theorem checkParts_cons (i : Nat) (p : PyStr) (rest : List PyStr) :
    checkParts i (p :: rest) = (specLabelOk i p && checkParts (i + 1) rest) := by
  simp only [checkParts, specLabelOk]
  by_cases h1 : p = []
  · simp [h1]
  · by_cases h2 : p.length > 63
    · simp [h1, h2, Nat.not_le.mpr h2]
    · have h2' : p.length ≤ 63 := Nat.not_lt.mp h2
      by_cases h3 : p = ['*']
      · by_cases h4 : i = 0 <;> simp [h1, h2, h2', h3, h4]
      · by_cases h5 : pyIsAlnum (p.headD ' ') <;>
        by_cases h6 : pyIsAlnum (p.getLastD ' ') <;>
        by_cases h7 : p.all (fun c => pyIsAlnum c || c = '-') <;>
          simp [h1, h2, h2', h3, h5, h6, h7]

theorem checkParts_eq (ps : List PyStr) (i : Nat) :
    checkParts i ps = allWithIndex specLabelOk i ps := by
  induction ps generalizing i with
  | nil => rfl
  | cons p rest ih => rw [checkParts_cons, allWithIndex, ih]

theorem validate_hostname_eq_spec (h : PyStr) :
    validate_hostname h = specValidHostname h := by
  simp only [validate_hostname, specValidHostname]
  by_cases h1 : h = []
  · simp [h1]
  · by_cases h2 : h.length > 253
    · simp [h1, h2, Nat.not_le.mpr h2]
    · have h2' : h.length ≤ 253 := Nat.not_lt.mp h2
      by_cases h3 : pyStartsWith ['.'] h <;>
      by_cases h4 : pyEndsWith ['.'] h <;>
      by_cases h5 : pyContains ['.', '.'] h <;>
        simp [h1, h2, h2', h3, h4, h5]
      by_cases h6 : (pySplit '.' h).length < 2
      · simp [h6, Nat.not_le.mpr h6]
      · simp [h6, Nat.not_lt.mp h6, checkParts_eq]

set_option maxRecDepth 200000

/-- C1: `validate_hostname` accepts exactly the strings admitted by the
specification's rules (non-empty, length at most 253, no leading,
trailing or double dot, at least two labels, each label non-empty and at
most 63 characters, `*` only as the first label, other labels
alphanumeric-hyphen with alphanumeric first and last characters); in
particular a 253-character hostname passes and a 254-character one
fails, a 63-character label passes and a 64-character one fails, and
`*.*.example.com` is rejected. -/
theorem validate_hostname_spec :
    (∀ h : PyStr, validate_hostname h = specValidHostname h) ∧
    (host253.length = 253 ∧ validate_hostname host253 = true) ∧
    (host254.length = 254 ∧ validate_hostname host254 = false) ∧
    validate_hostname hostLabel63 = true ∧
    validate_hostname hostLabel64 = false ∧
    validate_hostname ('*' :: '.' :: '*' :: '.' :: "example.com".toList) = false :=
  ⟨validate_hostname_eq_spec, ⟨by decide, by decide⟩, ⟨by decide, by decide⟩,
   by decide, by decide, by decide⟩

/-- C5: for every validated hostname the derived zone name is the last
two labels joined by `.` and the derived record name is the remaining
leading labels joined by `.` (empty for a two-label hostname), as the
specification's `split` examples require. -/
theorem split_hostname_spec :
    (∀ h : PyStr, validate_hostname h = true →
       (zoneOf h, recordNameOf h) = spec_split h) ∧
    (zoneOf "api.example.com".toList, recordNameOf "api.example.com".toList) =
      ("example.com".toList, "api".toList) ∧
    (zoneOf "example.com".toList, recordNameOf "example.com".toList) =
      (("example.com".toList, []) : PyStr × PyStr) ∧
    (zoneOf "*.example.com".toList, recordNameOf "*.example.com".toList) =
      ("example.com".toList, ['*']) ∧
    (zoneOf "*.sub.example.com".toList, recordNameOf "*.sub.example.com".toList) =
      ("example.com".toList, '*' :: '.' :: "sub".toList) := by
  refine ⟨fun h _ => ?eq, by decide, by decide, by decide, by decide⟩
  simp only [zoneOf, recordNameOf, spec_split, Prod.mk.injEq, true_and]
  by_cases hlen : (pySplit '.' h).length > 2
  · simp [hlen]
  · have h0 : (pySplit '.' h).length - 2 = 0 := by omega
    simp [hlen, h0, List.intercalate]

/-- C5 witness: the general clause of `split_hostname_spec`
instantiated at `api.example.com`. -/
theorem split_hostname_spec_witness :
    (zoneOf "api.example.com".toList, recordNameOf "api.example.com".toList) =
      spec_split "api.example.com".toList :=
  split_hostname_spec.1 ("api.example.com".toList) (by decide)

/-- C10: `validate_hostname` accepts hostnames containing non-ASCII
characters, because the per-character checks use Python's Unicode-aware
`str.isalnum`: `héllo.example.com` contains the non-ASCII letter `é`
(U+00E9) and is accepted. -/
theorem validate_hostname_accepts_unicode :
    validate_hostname ("héllo.example.com".toList) = true ∧
    ("héllo.example.com".toList.any fun c => 128 ≤ c.toNat) = true := by
  exact ⟨by decide, by decide⟩

theorem updFn_type (i : Nat) (c : PyStr) (t : Nat) (r : DNSRecord) :
    (updFn i c t r).type = r.type := by
  unfold updFn; split <;> rfl

theorem updFn_name (i : Nat) (c : PyStr) (t : Nat) (r : DNSRecord) :
    (updFn i c t r).name = r.name := by
  unfold updFn; split <;> rfl

theorem updFn_id (i : Nat) (c : PyStr) (t : Nat) (r : DNSRecord) :
    (updFn i c t r).id = r.id := by
  unfold updFn; split <;> rfl

theorem findA_map_updFn (l : List DNSRecord) (i : Nat) (c : PyStr) (t : Nat)
    (n : PyStr) :
    findA (l.map (updFn i c t)) n = (findA l n).map (updFn i c t) := by
  have hcomp : ((fun r : DNSRecord => decide (r.type = "A".toList) && decide (r.name = n)) ∘ updFn i c t)
      = (fun r : DNSRecord => decide (r.type = "A".toList) && decide (r.name = n)) := by
    funext r
    simp [Function.comp, updFn_type, updFn_name]
  simp only [findA, List.find?_map, hcomp]

theorem findA_append (l l' : List DNSRecord) (n : PyStr) :
    findA (l ++ l') n = (findA l n).or (findA l' n) := by
  simp only [findA, List.find?_append]

theorem validate_two_labels (h : PyStr) (hv : validate_hostname h = true) :
    ¬ (pySplit '.' h).length < 2 := by
  rw [validate_hostname_eq_spec] at hv
  simp only [specValidHostname, Bool.and_eq_true, decide_eq_true_eq] at hv
  omega

theorem process_unchanged_of_good (s : Store) (h ip : PyStr)
    (hv : validate_hostname h = true)
    (hg : good s (zoneOf h) (recordNameOf h) ip) :
    process_hostname s h ip = (.unchanged, s, [Call.list (zoneOf h)]) := by
  obtain ⟨hl, r, hf, hc⟩ := hg
  simp [process_hostname, hv, validate_two_labels h hv,
        get_existing_dns_records, Store.listRecords, hl, hf, hc]

theorem good_update (s : Store) (z' : PyStr) (rid : Nat) (ip z n : PyStr)
    (hg : good s z n ip) : good (update_dns_record s z' rid ip).2.1 z n ip := by
  obtain ⟨hl, r, hf, hc⟩ := hg
  unfold update_dns_record
  split
  · exact ⟨hl, r, hf, hc⟩
  · cases hs' : s.updateRecord z' rid ip 300 with
    | none => exact ⟨hl, r, hf, hc⟩
    | some s' =>
      unfold Store.updateRecord at hs'
      split at hs'
      · exact Option.noConfusion hs'
      · injection hs' with hs'
        subst hs'
        refine ⟨hl, ?_⟩
        by_cases hz : z = z'
        · subst hz
          simp only [eq_self_iff_true, if_true, findA_map_updFn, hf,
            Option.map_some]
          refine ⟨updFn rid ip 300 r, rfl, ?_⟩
          unfold updFn
          split <;> simp [hc]
        · simp only [if_neg hz]
          exact ⟨r, hf, hc⟩

theorem good_create (s : Store) (z' n' ip z n : PyStr)
    (hg : good s z n ip) : good (create_dns_record s z' n' ip).2.1 z n ip := by
  obtain ⟨hl, r, hf, hc⟩ := hg
  unfold create_dns_record
  split
  · exact ⟨hl, r, hf, hc⟩
  · cases hs' : s.createRecord z' n' ("A".toList) ip 300 with
    | none => exact ⟨hl, r, hf, hc⟩
    | some p =>
      unfold Store.createRecord at hs'
      split at hs'
      · exact Option.noConfusion hs'
      · injection hs' with hs'
        subst hs'
        refine ⟨hl, ?_⟩
        by_cases hz : z = z'
        · subst hz
          simp only [eq_self_iff_true, if_true, findA_append, hf,
            Option.or_some]
          exact ⟨r, rfl, hc⟩
        · simp only [if_neg hz]
          exact ⟨r, hf, hc⟩

theorem good_process (s : Store) (h' ip z n : PyStr) (hg : good s z n ip) :
    good (process_hostname s h' ip).2.1 z n ip := by
  unfold process_hostname
  split
  · exact hg
  split
  · exact hg
  simp only [get_existing_dns_records, Store.listRecords]
  split
  · exact hg
  split
  · split
    · exact hg
    · split <;> exact good_update s _ _ ip z n hg
  · split <;> exact good_create s _ _ ip z n hg

theorem process_eq_invalid (s : Store) (h ip : PyStr)
    (hv : validate_hostname h = false) :
    process_hostname s h ip = (.invalidHostname, s, []) := by
  simp [process_hostname, hv]

theorem process_eq_listfail (s : Store) (h ip : PyStr)
    (hv : validate_hostname h = true) (hl : s.listFails (zoneOf h) = true) :
    process_hostname s h ip = (.zoneReadFailed, s, [Call.list (zoneOf h)]) := by
  simp [process_hostname, hv, validate_two_labels h hv,
        get_existing_dns_records, Store.listRecords, hl]

theorem process_eq_update (s : Store) (h ip : PyStr) (r : DNSRecord)
    (hv : validate_hostname h = true)
    (hl : s.listFails (zoneOf h) = false)
    (hf : findA (s.zones (zoneOf h)) (recordNameOf h) = some r)
    (hc : r.content ≠ ip) :
    process_hostname s h ip =
      (if (update_dns_record s (zoneOf h) r.id ip).1 then .updated
       else .updateFailed,
       (update_dns_record s (zoneOf h) r.id ip).2.1,
       Call.list (zoneOf h) :: (update_dns_record s (zoneOf h) r.id ip).2.2) := by
  rcases hu : update_dns_record s (zoneOf h) r.id ip with ⟨ok, s', cs⟩
  simp [process_hostname, hv, validate_two_labels h hv,
        get_existing_dns_records, Store.listRecords, hl, hf, hc, hu]
  cases ok <;> simp

theorem process_eq_create (s : Store) (h ip : PyStr)
    (hv : validate_hostname h = true)
    (hl : s.listFails (zoneOf h) = false)
    (hf : findA (s.zones (zoneOf h)) (recordNameOf h) = none) :
    process_hostname s h ip =
      (if (create_dns_record s (zoneOf h) (recordNameOf h) ip).1 then .created
       else .createFailed,
       (create_dns_record s (zoneOf h) (recordNameOf h) ip).2.1,
       Call.list (zoneOf h) ::
         (create_dns_record s (zoneOf h) (recordNameOf h) ip).2.2) := by
  rcases hcr : create_dns_record s (zoneOf h) (recordNameOf h) ip with ⟨ok, s', cs⟩
  simp [process_hostname, hv, validate_two_labels h hv,
        get_existing_dns_records, Store.listRecords, hl, hf, hcr]
  cases ok <;> simp

theorem update_dns_record_eq (s : Store) (z' : PyStr) (rid : Nat) (ip : PyStr)
    (hip : validate_ip_address ip = true) (hu : s.updateFails z' rid = false) :
    update_dns_record s z' rid ip =
      (true,
       { s with zones := fun z =>
           if z = z' then (s.zones z').map (updFn rid ip 300) else s.zones z },
       [Call.update z' rid ip 300]) := by
  simp [update_dns_record, Store.updateRecord, hip, hu]

theorem update_dns_record_ok_inv (s : Store) (z' : PyStr) (rid : Nat)
    (ip : PyStr) (hok : (update_dns_record s z' rid ip).1 = true) :
    validate_ip_address ip = true ∧ s.updateFails z' rid = false := by
  by_cases h1 : validate_ip_address ip = true
  · refine ⟨h1, ?_⟩
    by_cases h2 : s.updateFails z' rid = true
    · simp [update_dns_record, Store.updateRecord, h1, h2] at hok
    · simpa using h2
  · rw [Bool.not_eq_true] at h1
    simp [update_dns_record, h1] at hok

theorem create_dns_record_eq (s : Store) (z' n' : PyStr) (ip : PyStr)
    (hip : validate_ip_address ip = true) (hcf : s.createFails z' n' = false) :
    create_dns_record s z' n' ip =
      (true,
       { s with
         zones := fun z =>
           if z = z' then
             s.zones z' ++ [⟨s.nextId, "A".toList, n', ip, 300⟩]
           else s.zones z,
         nextId := s.nextId + 1 },
       [Call.create z' n' ip 300]) := by
  simp [create_dns_record, Store.createRecord, hip, hcf]

theorem create_dns_record_ok_inv (s : Store) (z' n' : PyStr) (ip : PyStr)
    (hok : (create_dns_record s z' n' ip).1 = true) :
    validate_ip_address ip = true ∧ s.createFails z' n' = false := by
  by_cases h1 : validate_ip_address ip = true
  · refine ⟨h1, ?_⟩
    by_cases h2 : s.createFails z' n' = true
    · simp [create_dns_record, Store.createRecord, h1, h2] at hok
    · simpa using h2
  · rw [Bool.not_eq_true] at h1
    simp [create_dns_record, h1] at hok

theorem process_created_updated (s : Store) (h ip : PyStr)
    (hcu : (process_hostname s h ip).1 = .created ∨
           (process_hostname s h ip).1 = .updated) :
    validate_hostname h = true ∧
    good (process_hostname s h ip).2.1 (zoneOf h) (recordNameOf h) ip := by
  by_cases hv : validate_hostname h = true
  case neg =>
    rw [Bool.not_eq_true] at hv
    rw [process_eq_invalid s h ip hv] at hcu
    simp at hcu
  refine ⟨hv, ?_⟩
  by_cases hl : s.listFails (zoneOf h) = true
  · rw [process_eq_listfail s h ip hv hl] at hcu
    simp at hcu
  · rw [Bool.not_eq_true] at hl
    cases hf : findA (s.zones (zoneOf h)) (recordNameOf h) with
    | some r =>
      by_cases hc : r.content = ip
      · rw [process_unchanged_of_good s h ip hv ⟨hl, r, hf, hc⟩] at hcu
        simp at hcu
      · rw [process_eq_update s h ip r hv hl hf hc] at hcu ⊢
        by_cases hok : (update_dns_record s (zoneOf h) r.id ip).1 = true
        · obtain ⟨hip, hu⟩ := update_dns_record_ok_inv s _ _ _ hok
          show good (update_dns_record s (zoneOf h) r.id ip).2.1 _ _ _
          rw [update_dns_record_eq s _ _ _ hip hu]
          refine ⟨hl, ?_⟩
          simp only [eq_self_iff_true, if_true, findA_map_updFn, hf,
            Option.map_some]
          refine ⟨updFn r.id ip 300 r, rfl, by unfold updFn; simp⟩
        · rw [Bool.not_eq_true] at hok
          simp [hok] at hcu
    | none =>
      rw [process_eq_create s h ip hv hl hf] at hcu ⊢
      by_cases hok : (create_dns_record s (zoneOf h) (recordNameOf h) ip).1 = true
      · obtain ⟨hip, hcf⟩ := create_dns_record_ok_inv s _ _ _ hok
        show good (create_dns_record s (zoneOf h) (recordNameOf h) ip).2.1 _ _ _
        rw [create_dns_record_eq s _ _ _ hip hcf]
        refine ⟨hl, ?_⟩
        simp only [eq_self_iff_true, if_true, findA_append, hf]
        refine ⟨⟨s.nextId, "A".toList, recordNameOf h, ip, 300⟩, ?_, rfl⟩
        simp [findA, List.find?]
      · rw [Bool.not_eq_true] at hok
        simp [hok] at hcu

theorem good_run (s : Store) (hs : List PyStr) (ip z n : PyStr)
    (hg : good s z n ip) : good (runHostnames s hs ip).2.1 z n ip := by
  induction hs generalizing s with
  | nil => exact hg
  | cons h rest ih =>
    have hg' := good_process s h ip z n hg
    rcases hp : process_hostname s h ip with ⟨o, s', cs⟩
    rw [hp] at hg'
    have hrest := ih s' hg'
    rcases hr : runHostnames s' rest ip with ⟨os, s'', cs'⟩
    rw [hr] at hrest
    simp only [runHostnames, hp, hr]
    exact hrest

theorem first_run_good_at (ip : PyStr) (hs : List PyStr) (s : Store) (i : Nat)
    (h : PyStr) (o : Outcome)
    (hh : hs.get? i = some h)
    (ho : (runHostnames s hs ip).1.get? i = some o)
    (hcu : o = .created ∨ o = .updated) :
    validate_hostname h = true ∧
    good (runHostnames s hs ip).2.1 (zoneOf h) (recordNameOf h) ip := by
  induction hs generalizing s i with
  | nil => simp at hh
  | cons h0 rest ih =>
    rcases hp : process_hostname s h0 ip with ⟨o0, s', cs⟩
    rcases hr : runHostnames s' rest ip with ⟨os, s'', cs'⟩
    rw [show runHostnames s (h0 :: rest) ip = (o0 :: os, s'', cs ++ cs') from by
      simp only [runHostnames, hp, hr]] at ho ⊢
    cases i with
    | zero =>
      simp only [List.get?] at hh ho
      injection hh with hh
      injection ho with ho
      subst hh; subst ho
      have h1 := process_created_updated s h0 ip (by rw [hp]; simpa using hcu)
      rw [hp] at h1
      refine ⟨h1.1, ?_⟩
      have h2 := good_run s' rest ip (zoneOf h0) (recordNameOf h0) h1.2
      rw [hr] at h2
      exact h2
    | succ j =>
      simp only [List.get?] at hh ho
      have := ih s' j hh (by rw [hr]; exact ho)
      rw [hr] at this
      exact this

theorem run_unchanged_at (ip : PyStr) (hs : List PyStr) (s : Store) (i : Nat)
    (h : PyStr)
    (hh : hs.get? i = some h)
    (hv : validate_hostname h = true)
    (hg : good s (zoneOf h) (recordNameOf h) ip) :
    (runHostnames s hs ip).1.get? i = some .unchanged := by
  induction hs generalizing s i with
  | nil => simp at hh
  | cons h0 rest ih =>
    rcases hp : process_hostname s h0 ip with ⟨o0, s', cs⟩
    rcases hr : runHostnames s' rest ip with ⟨os, s'', cs'⟩
    rw [show runHostnames s (h0 :: rest) ip = (o0 :: os, s'', cs ++ cs') from by
      simp only [runHostnames, hp, hr]]
    cases i with
    | zero =>
      simp only [List.get?] at hh ⊢
      injection hh with hh
      subst hh
      rw [process_unchanged_of_good s h0 ip hv hg] at hp
      injection hp with h1 h2
      rw [h1]
    | succ j =>
      simp only [List.get?]
      have hg' := good_process s h0 ip (zoneOf h) (recordNameOf h) hg
      rw [hp] at hg'
      have := ih s' j hh hg'
      rw [hr] at this
      exact this

theorem run_length (s : Store) (hs : List PyStr) (ip : PyStr) :
    (runHostnames s hs ip).1.length = hs.length := by
  induction hs generalizing s with
  | nil => rfl
  | cons h rest ih =>
    rcases hp : process_hostname s h ip with ⟨o, s', cs⟩
    rcases hr : runHostnames s' rest ip with ⟨os, s'', cs'⟩
    have := ih s'
    rw [hr] at this
    simp only [runHostnames, hp, hr, List.length_cons, this]

theorem process_unchanged_calls (s : Store) (h ip : PyStr)
    (ho : (process_hostname s h ip).1 = .unchanged) :
    process_hostname s h ip = (.unchanged, s, [Call.list (zoneOf h)]) := by
  by_cases hv : validate_hostname h = true
  case neg =>
    rw [Bool.not_eq_true] at hv
    rw [process_eq_invalid s h ip hv] at ho
    simp at ho
  by_cases hl : s.listFails (zoneOf h) = true
  · rw [process_eq_listfail s h ip hv hl] at ho
    simp at ho
  · rw [Bool.not_eq_true] at hl
    cases hf : findA (s.zones (zoneOf h)) (recordNameOf h) with
    | some r =>
      by_cases hc : r.content = ip
      · exact process_unchanged_of_good s h ip hv ⟨hl, r, hf, hc⟩
      · rw [process_eq_update s h ip r hv hl hf hc] at ho
        simp only at ho
        split at ho <;> simp at ho
    | none =>
      rw [process_eq_create s h ip hv hl hf] at ho
      simp only at ho
      split at ho <;> simp at ho

theorem second_run_unchanged_aux (s : Store) (hostnames : List PyStr) (ip : PyStr)
    (i : Nat) (o : Outcome)
    (h1 : (runHostnames s hostnames ip).1.get? i = some o)
    (h2 : o = .created ∨ o = .updated) :
    (runHostnames (runHostnames s hostnames ip).2.1 hostnames ip).1.get? i =
      some .unchanged := by
  have hi : i < hostnames.length := by
    have := List.get?_eq_some.mp h1
    obtain ⟨hlt, _⟩ := this
    rwa [run_length] at hlt
  have hh : hostnames.get? i = some (hostnames.get ⟨i, hi⟩) :=
    List.get?_eq_get hi
  obtain ⟨hv, hgood⟩ :=
    first_run_good_at ip hostnames s i (hostnames.get ⟨i, hi⟩) o hh h1 h2
  exact run_unchanged_at ip hostnames (runHostnames s hostnames ip).2.1 i
    (hostnames.get ⟨i, hi⟩) hh hv hgood


/-- C2: reconciling the same hostname list twice with the same target
address yields `unchanged` on the second run for every hostname whose
first-run outcome was `created` or `updated` (the store model persists
the first run's writes); and an `unchanged` outcome issues no create and
no update call, only the zone listing. -/
theorem reconcile_idempotent (s : Store) (hostnames : List PyStr) (ip : PyStr)
    (i : Nat) (o : Outcome)
    (h1 : (runHostnames s hostnames ip).1.get? i = some o)
    (h2 : o = .created ∨ o = .updated) :
    (runHostnames (runHostnames s hostnames ip).2.1 hostnames ip).1.get? i =
      some .unchanged ∧
    (∀ s' h', (process_hostname s' h' ip).1 = .unchanged →
       process_hostname s' h' ip = (.unchanged, s', [Call.list (zoneOf h')])) :=
  ⟨second_run_unchanged_aux s hostnames ip i o h1 h2,
   fun s' h' ho => process_unchanged_calls s' h' ip ho⟩

/-- C2 witness: starting from the empty store, `api.example.com` is
`created` on the first run and `unchanged` on the second. -/
theorem reconcile_idempotent_witness :
    (runHostnames (runHostnames emptyStore [hostApi] ipTarget).2.1
        [hostApi] ipTarget).1.get? 0 = some .unchanged :=
  (reconcile_idempotent emptyStore [hostApi] ipTarget 0 .created (by decide)
    (Or.inl rfl)).1

/-- C4: when the first listed `A` record with the derived name already
carries the target address, the outcome is `unchanged`, the store is
untouched and the only store call is the zone listing — no update and no
create is issued. -/
theorem unchanged_record_no_write (s : Store) (h ip : PyStr) (r : DNSRecord)
    (hv : validate_hostname h = true)
    (hl : s.listFails (zoneOf h) = false)
    (hf : findA (s.zones (zoneOf h)) (recordNameOf h) = some r)
    (hc : r.content = ip) :
    process_hostname s h ip = (.unchanged, s, [Call.list (zoneOf h)]) :=
  process_unchanged_of_good s h ip hv ⟨hl, r, hf, hc⟩

/-- C4 witness: a store whose `api` record already holds the target
address is left untouched. -/
theorem unchanged_record_no_write_witness :
    process_hostname currentStore hostApi ipTarget =
      (.unchanged, currentStore, [Call.list (zoneOf hostApi)]) :=
  unchanged_record_no_write currentStore hostApi ipTarget
    ⟨7, "A".toList, "api".toList, "10.0.0.5".toList, 300⟩
    (by decide) rfl (by decide) (by decide)

/-- C7 counterexample: updating a stale record does not leave its TTL
unchanged — the update payload fixes `ttl` to 300, so a stale record
with TTL 600 comes back with TTL 300. -/
theorem update_ttl_counterexample :
    (process_hostname staleStore hostApi ipTarget).1 = .updated ∧
    (staleStore.zones ("example.com".toList)).map DNSRecord.ttl = [600] ∧
    ((process_hostname staleStore hostApi ipTarget).2.1.zones
        ("example.com".toList)).map DNSRecord.ttl = [300] :=
  ⟨by decide, by decide, by decide⟩

/-- C7 amended: the update issued for a stale record rewrites that
record's content to the target address and its TTL to 300; the id, type
and name of every record, all records with other ids, all other zones
and the store's failure behaviour are unchanged. -/
theorem update_mutates_content_and_ttl (s : Store) (h ip : PyStr) (r : DNSRecord)
    (hv : validate_hostname h = true)
    (hl : s.listFails (zoneOf h) = false)
    (hf : findA (s.zones (zoneOf h)) (recordNameOf h) = some r)
    (hc : r.content ≠ ip)
    (hip : validate_ip_address ip = true)
    (hu : s.updateFails (zoneOf h) r.id = false) :
    (process_hostname s h ip).1 = .updated ∧
    (process_hostname s h ip).2.1.zones (zoneOf h) =
      (s.zones (zoneOf h)).map (updFn r.id ip 300) ∧
    ((process_hostname s h ip).2.1.zones (zoneOf h)).map
        (fun x => (x.id, x.type, x.name)) =
      (s.zones (zoneOf h)).map (fun x => (x.id, x.type, x.name)) ∧
    (∀ z, z ≠ zoneOf h → (process_hostname s h ip).2.1.zones z = s.zones z) ∧
    (process_hostname s h ip).2.1.listFails = s.listFails := by
  rw [process_eq_update s h ip r hv hl hf hc,
      update_dns_record_eq s (zoneOf h) r.id ip hip hu]
  refine ⟨by simp, by simp, ?_, ?_, rfl⟩
  · simp only [eq_self_iff_true, if_true, List.map_map]
    refine List.map_congr_left ?_
    intro x _
    simp [Function.comp, updFn_id, updFn_type, updFn_name]
  · intro z hz
    simp [hz]

/-- C7 amended witness: the stale `api` record is updated. -/
theorem update_mutates_content_and_ttl_witness :
    (process_hostname staleStore hostApi ipTarget).1 = .updated :=
  (update_mutates_content_and_ttl staleStore hostApi ipTarget
    ⟨7, "A".toList, "api".toList, "10.0.0.9".toList, 600⟩
    (by decide) rfl (by decide) (by decide) (by decide) rfl).1


theorem update_dns_record_no_delete (s : Store) (z : PyStr) (rid : Nat)
    (ip : PyStr) :
    ((update_dns_record s z rid ip).2.2.all fun c => !(Call.isDelete c)) = true := by
  unfold update_dns_record
  split
  · rfl
  · cases s.updateRecord z rid ip 300 <;> rfl

theorem create_dns_record_no_delete (s : Store) (z n ip : PyStr) :
    ((create_dns_record s z n ip).2.2.all fun c => !(Call.isDelete c)) = true := by
  unfold create_dns_record
  split
  · rfl
  · cases hcr : s.createRecord z n ("A".toList) ip 300 with
    | none => rfl
    | some p =>
      rcases p with ⟨r, st⟩
      rfl

theorem process_no_delete (s : Store) (h ip : PyStr) :
    ((process_hostname s h ip).2.2.all fun c => !(Call.isDelete c)) = true := by
  by_cases hv : validate_hostname h = true
  case neg =>
    rw [Bool.not_eq_true] at hv
    rw [process_eq_invalid s h ip hv]
    rfl
  by_cases hl : s.listFails (zoneOf h) = true
  · rw [process_eq_listfail s h ip hv hl]
    rfl
  · rw [Bool.not_eq_true] at hl
    cases hf : findA (s.zones (zoneOf h)) (recordNameOf h) with
    | some r =>
      by_cases hc : r.content = ip
      · rw [process_unchanged_of_good s h ip hv ⟨hl, r, hf, hc⟩]
        rfl
      · rw [process_eq_update s h ip r hv hl hf hc]
        simp only [List.all_cons, Call.isDelete, Bool.not_false, Bool.true_and]
        exact update_dns_record_no_delete s (zoneOf h) r.id ip
    | none =>
      rw [process_eq_create s h ip hv hl hf]
      simp only [List.all_cons, Call.isDelete, Bool.not_false, Bool.true_and]
      exact create_dns_record_no_delete s (zoneOf h) (recordNameOf h) ip

theorem run_no_delete (s : Store) (hs : List PyStr) (ip : PyStr) :
    ((runHostnames s hs ip).2.2.all fun c => !(Call.isDelete c)) = true := by
  induction hs generalizing s with
  | nil => rfl
  | cons h rest ih =>
    rcases hp : process_hostname s h ip with ⟨o, s1, cs⟩
    rcases hr : runHostnames s1 rest ip with ⟨os, s2, cs1⟩
    have hhead := process_no_delete s h ip
    rw [hp] at hhead
    have htail := ih s1
    rw [hr] at htail
    simp only [runHostnames, hp, hr, List.all_append] at hhead htail ⊢
    simp [hhead, htail]

/-- C8: the reconciliation run never issues a delete to the store —
every call it makes is a list, a create or an update (the exposed
`delete_dns_record` operation is the only source of delete calls and is
not invoked by the loop). -/
theorem reconcile_never_deletes (s : Store) (hostnames : List PyStr)
    (ip : PyStr) :
    ((update_dns_records s hostnames ip).2.2.all
      fun c => !(Call.isDelete c)) = true ∧
    (∀ zone recordId,
      ((delete_dns_record s zone recordId).2.2.all
        fun c => !(Call.isDelete c)) = false) := by
  constructor
  · rcases hr : runHostnames s hostnames ip with ⟨os, s1, cs⟩
    have := run_no_delete s hostnames ip
    rw [hr] at this
    simpa [update_dns_records, hr] using this
  · intro zone recordId
    rfl

theorem filter_length_pos_iff_any {α : Type} (p : α → Bool) (l : List α) :
    0 < (l.filter p).length ↔ l.any p = true := by
  induction l with
  | nil => simp
  | cons a l ih =>
    cases hp : p a <;> simp [List.filter_cons, hp, ih]

theorem any_false_iff_all_not {α : Type} (p : α → Bool) (l : List α) :
    l.any p = false ↔ (l.all fun x => !(p x)) = true := by
  induction l with
  | nil => simp
  | cons a l ih =>
    cases hp : p a <;> simp [hp, ih]

/-- C3: for a non-empty hostname list every hostname receives an
outcome (failures never abort the loop), the batch reports success and
the process exits 0 exactly when at least one hostname reached a
non-failed outcome, and the process exits 1 exactly when every hostname
failed. -/
theorem batch_partial_success (s : Store) (hostnames : List PyStr) (ip : PyStr)
    (hne : hostnames ≠ []) :
    (runHostnames s hostnames ip).1.length = hostnames.length ∧
    ((update_dns_records s hostnames ip).1 = true ↔
      ((runHostnames s hostnames ip).1.any Outcome.isSuccess) = true) ∧
    (mainExitCode s hostnames ip = 0 ↔
      ((runHostnames s hostnames ip).1.any Outcome.isSuccess) = true) ∧
    (mainExitCode s hostnames ip = 1 ↔
      ((runHostnames s hostnames ip).1.all
        fun o => !(Outcome.isSuccess o)) = true) := by
  have hlen := run_length s hostnames ip
  rcases hr : runHostnames s hostnames ip with ⟨os, s1, cs⟩
  rw [hr] at hlen
  simp only at hlen
  have hflag : (update_dns_records s hostnames ip).1 = os.any Outcome.isSuccess := by
    simp only [update_dns_records, hr]
    by_cases hpos : 0 < (os.filter Outcome.isSuccess).length
    · have hany : os.any Outcome.isSuccess = true :=
        (filter_length_pos_iff_any Outcome.isSuccess os).mp hpos
      rw [hany]
      by_cases he : (os.filter Outcome.isSuccess).length = hostnames.length <;>
        simp [he, hpos]
    · have hz : (os.filter Outcome.isSuccess).length = 0 := by omega
      have hany : os.any Outcome.isSuccess = false := by
        cases hq : os.any Outcome.isSuccess
        · rfl
        · exact absurd
            ((filter_length_pos_iff_any Outcome.isSuccess os).mpr hq) hpos
      have hlen0 : hostnames.length ≠ 0 := by
        intro hcon
        exact hne (List.eq_nil_of_length_eq_zero hcon)
      rw [hany, hz, if_neg (fun hc => hlen0 hc.symm), if_neg (by omega)]
  refine ⟨hlen, ?_, ?_, ?_⟩
  · rw [hflag]
  · rw [mainExitCode, hflag]
    cases hq : os.any Outcome.isSuccess <;> simp [hq]
  · rw [mainExitCode, hflag, ← any_false_iff_all_not]
    cases hq : os.any Outcome.isSuccess <;> simp [hq]

/-- C3 witness: one malformed hostname gives exit code 1; the
malformed-plus-valid pair gives exit code 0. -/
theorem batch_partial_success_witness :
    mainExitCode emptyStore [hostBad] ipTarget = 1 ∧
    mainExitCode emptyStore [hostBad, hostApi] ipTarget = 0 :=
  ⟨(batch_partial_success emptyStore [hostBad] ipTarget (by decide)).2.2.2.mpr
      (by decide),
   (batch_partial_success emptyStore [hostBad, hostApi] ipTarget
      (by decide)).2.2.1.mpr (by decide)⟩


/-- C9: create and update refuse an invalid target address before
touching the store (result `False`, store unchanged, no call issued);
for a valid literal the validation passes and the store call is issued
(even if the provider then rejects it). -/
theorem ip_validation_gate (s : Store) (zone nm : PyStr) (rid : Nat)
    (ip : PyStr) :
    (validate_ip_address ip = false →
       create_dns_record s zone nm ip = (false, s, []) ∧
       update_dns_record s zone rid ip = (false, s, [])) ∧
    (validate_ip_address ip = true →
       (create_dns_record s zone nm ip).2.2 = [Call.create zone nm ip 300] ∧
       (update_dns_record s zone rid ip).2.2 = [Call.update zone rid ip 300]) := by
  constructor
  · intro hbad
    constructor <;> simp [create_dns_record, update_dns_record, hbad]
  · intro hgood
    constructor
    · unfold create_dns_record
      rw [if_neg (by simp [hgood])]
      cases hcr : s.createRecord zone nm ("A".toList) ip 300 with
      | none => rfl
      | some p =>
        rcases p with ⟨r, st⟩
        rfl
    · unfold update_dns_record
      rw [if_neg (by simp [hgood])]
      cases s.updateRecord zone rid ip 300 <;> rfl

/-- C9 witness: `not-an-ip` is rejected with no store call; `10.0.0.5`
passes validation and the create call is issued. -/
theorem ip_validation_gate_witness :
    create_dns_record emptyStore ("example.com".toList) ("api".toList)
        ("not-an-ip".toList) = (false, emptyStore, []) ∧
    (create_dns_record emptyStore ("example.com".toList) ("api".toList)
        ipTarget).2.2 =
      [Call.create ("example.com".toList) ("api".toList) ipTarget 300] :=
  ⟨((ip_validation_gate emptyStore ("example.com".toList) ("api".toList) 0
      ("not-an-ip".toList)).1 (by decide)).1,
   ((ip_validation_gate emptyStore ("example.com".toList) ("api".toList) 0
      ipTarget).2 (by decide)).1⟩

/-- C6 counterexample: when the route query raises, discovery concludes
failure without ever attempting the interface dump, even though the
interface dump would have produced the qualifying address `10.0.0.5`. -/
theorem discovery_skips_addr_dump_counterexample :
    (get_ethernet_ip envRouteRaises).1 = none ∧
    Strategy.addrShow ∉ (get_ethernet_ip envRouteRaises).2 ∧
    scanAddrLines (pySplit '\n'
        ("inet 10.0.0.5/24 scope global eth0".toList)) =
      some ("10.0.0.5".toList) :=
  ⟨by decide, by decide, by decide⟩

/-- C6 amended: the interface dump is attempted before failure only
when the route query itself succeeds and yields no qualifying source
address; when the route query raises (or its parsing raises), the
interface dump is skipped and only the named-interface strategy is
attempted before discovery concludes failure. -/
theorem discovery_fallback_amended :
    (∀ (env : NetEnv) (out : PyStr), env.routeOut = some out →
       scanRouteLines (pySplit '\n' out) = .ok none →
       Strategy.addrShow ∈ (get_ip_linux env).2) ∧
    (∀ env : NetEnv, env.routeOut = none →
       (get_ip_linux env).2 = [Strategy.routeGet]) ∧
    (∀ (env : NetEnv) (out : PyStr), env.routeOut = some out →
       scanRouteLines (pySplit '\n' out) = .error () →
       (get_ip_linux env).2 = [Strategy.routeGet]) ∧
    (∀ env : NetEnv, (get_ethernet_ip env).1 = none →
       Strategy.routeGet ∈ (get_ethernet_ip env).2 ∧
       Strategy.ifconfig ∈ (get_ethernet_ip env).2) := by
  have hroute : ∀ env : NetEnv, Strategy.routeGet ∈ (get_ip_linux env).2 := by
    intro env
    unfold get_ip_linux
    cases env.routeOut with
    | none => simp
    | some out =>
      cases hsc : scanRouteLines (pySplit '\n' out) with
      | error e => cases e; simp [hsc]
      | ok o =>
        cases o with
        | none =>
          cases env.addrOut <;> simp [hsc]
        | some ip => simp [hsc]
  refine ⟨?_, ?_, ?_, ?_⟩
  · intro env out hout hsc
    unfold get_ip_linux
    rw [hout]
    cases env.addrOut <;> simp [hsc]
  · intro env hout
    unfold get_ip_linux
    rw [hout]
  · intro env out hout hsc
    unfold get_ip_linux
    rw [hout]
    simp [hsc]
  · intro env hnone
    unfold get_ethernet_ip at hnone ⊢
    by_cases hlin : pyTruthy (get_ip_linux env).1 = true
    · rw [if_pos hlin] at hnone
      rw [hnone] at hlin
      simp [pyTruthy] at hlin
    · rw [if_neg hlin] at hnone ⊢
      constructor
      · exact List.mem_append_left _ (hroute env)
      · refine List.mem_append_right _ ?_
        unfold get_ip_macos
        cases env.ifconfigOut <;> simp

/-- C6 amended witness: a route query that succeeds but reports no
`src` token leads to the interface dump being attempted; a raising
route query leaves the trace at just the route strategy. -/
theorem discovery_fallback_amended_witness :
    Strategy.addrShow ∈
      (get_ip_linux ⟨some ("10.0.0.5 dev eth0".toList), none, none⟩).2 ∧
    (get_ip_linux envRouteRaises).2 = [Strategy.routeGet] :=
  ⟨discovery_fallback_amended.1 ⟨some ("10.0.0.5 dev eth0".toList), none, none⟩
      ("10.0.0.5 dev eth0".toList) rfl rfl,
   discovery_fallback_amended.2.1 envRouteRaises rfl⟩

end DnsUpdate
